import Mathlib

/-!
Verification of the web-summarizer backend (`backend/mindmap.py`).

The definitions below are a shallow embedding of the Python source:
Python strings become `String`, Python lists become `List`, the in-memory
job table becomes an association list, fallible external calls (HTTP fetch,
AI capability, file write) become `Except`/parameters, and the background
task's field assignments become an explicit event list folded over a job
record.  Python `set` objects are modelled as insertion-ordered
duplicate-free lists (every property proved about them is independent of
iteration order).  The box-drawing literals are copied character for
character from the source file, which stores them in a double-encoded
(mojibake) form; e.g. the vertical-bar glyph is the three-character
sequence U+201A U+00EE U+00C7, and Python `len` counts those three
characters.
-/

namespace WebSummarizer

/-! ## Python string primitives -/

/-- Characters treated as whitespace by Python `str.strip`/`str.split`. -/
def pyWS (c : Char) : Bool :=
  c = ' ' || c = '\t' || c = '\n' || c = '\x0d' || c = '\x0b' || c = '\x0c'

/-- Python `str.strip()`: drop whitespace from both ends. -/
def pyStrip (s : String) : String :=
  String.mk (((s.toList.dropWhile pyWS).reverse.dropWhile pyWS).reverse)

/-- Maximal runs of characters satisfying `p`, in order; characters not
satisfying `p` separate runs and are discarded.  Structural accumulator
form so that the kernel can evaluate it. -/
def runsGo (p : Char → Bool) : List Char → List Char → List (List Char)
  | [], acc => if acc.isEmpty then [] else [acc.reverse]
  | c :: cs, acc =>
    if p c then runsGo p cs (c :: acc)
    else if acc.isEmpty then runsGo p cs []
    else acc.reverse :: runsGo p cs []

def runsBy (p : Char → Bool) (l : List Char) : List (List Char) :=
  runsGo p l []

/-- Python `str.split()` with no argument: whitespace-delimited tokens,
empty tokens discarded. -/
def pySplit (s : String) : List String :=
  (runsBy (fun c => !pyWS c) s.toList).map String.mk

/-- Python `str.lower()` (ASCII range, which covers every character the
regular expressions in the source can accept). -/
def pyLower (s : String) : String := String.mk (s.toList.map Char.toLower)

/-- Python `str.upper()` (ASCII range). -/
def pyUpper (s : String) : String := String.mk (s.toList.map Char.toUpper)

/-- Python `str.title()`: a letter is uppercased when the previous
character is not a letter, lowercased otherwise. -/
def pyTitleGo : List Char → Bool → List Char
  | [], _ => []
  | c :: cs, prev =>
    if c.isAlpha then (if prev then c.toLower else c.toUpper) :: pyTitleGo cs true
    else c :: pyTitleGo cs false

def pyTitle (s : String) : String := String.mk (pyTitleGo s.toList false)

/-- Word characters of the regex `\w` / boundary `\b` (ASCII range). -/
def isWordChar (c : Char) : Bool := c.isAlphanum || c = '_'

/-- Sentence-boundary characters of the regex `[.!?]+`. -/
def isBoundaryChar (c : Char) : Bool := c = '.' || c = '!' || c = '?'

/-- Python `re.split(r'[.!?]+', s)`: segments between maximal runs of
boundary characters, keeping empty segments at the ends.  The `Bool` flag
records whether the previous character belonged to a boundary run. -/
def splitPunctGo : List Char → List Char → Bool → List (List Char)
  | [], cur, _ => [cur.reverse]
  | c :: cs, cur, prevB =>
    if isBoundaryChar c then
      if prevB then splitPunctGo cs cur true
      else cur.reverse :: splitPunctGo cs [] true
    else splitPunctGo cs (c :: cur) false

def splitSentences (s : String) : List String :=
  (splitPunctGo s.toList [] false).map String.mk

/-- Matches of `re.findall(r'\b[A-Z][a-zA-Z]+\b', s)`: a maximal run of
word characters matches exactly when it is an uppercase letter followed by
at least one more letter, with no digits or underscores. -/
def capWordRun (r : List Char) : Bool :=
  match r with
  | [] => false
  | c :: rest => c.isUpper && !rest.isEmpty && rest.all Char.isAlpha

def findCapWords (s : String) : List String :=
  ((runsBy isWordChar s.toList).filter capWordRun).map String.mk

/-- Matches of `re.findall(r'\b[A-Z][a-zA-Z]{3,}\b', s)`. -/
def importantWordRun (r : List Char) : Bool :=
  match r with
  | [] => false
  | c :: rest => c.isUpper && decide (3 ≤ rest.length) && rest.all Char.isAlpha

def findImportantWords (s : String) : List String :=
  ((runsBy isWordChar s.toList).filter importantWordRun).map String.mk

/-- Alternatives of the technology-term regex in `_extractive_summary`.
The pattern is applied to lowercased text, so the uppercase alternative
`API` can never match there, exactly as in the source. -/
def techKeywords : List String :=
  ["cloud", "platform", "service", "API", "infrastructure", "computing",
   "data", "security", "network", "database", "server", "application",
   "software", "technology", "development", "deployment", "management",
   "system"]

/-- Leading-segment test on character lists (structural, so that the
kernel can evaluate it). -/
def beginsWith : List Char → List Char → Bool
  | [], _ => true
  | _ :: _, [] => false
  | a :: as, b :: bs => a == b && beginsWith as bs

/-- Matches of `re.findall(r'\b(?:cloud|...|system)\w*\b', s)`: a maximal
run of word characters matches exactly when some alternative starts it
(the trailing `\w*` then greedily extends to the end of the run). -/
def findTechTerms (s : String) : List String :=
  ((runsBy isWordChar s.toList).filter
    (fun r => techKeywords.any (fun k => beginsWith k.toList r))).map String.mk

/-- Python `set.add` on the insertion-ordered list model of a set. -/
def setAdd (acc : List String) (x : String) : List String :=
  if x ∈ acc then acc else acc ++ [x]

/-- Python `set.update` on the insertion-ordered list model of a set. -/
def setUpdate (acc : List String) (l : List String) : List String :=
  l.foldl setAdd acc

/-- String of `n` spaces, as produced by Python `" " * n` (empty when the
Python expression would be negative, matching truncated subtraction). -/
def spaces (n : Nat) : String := String.mk (List.replicate n ' ')

/-- Python `s * n` for a string `s`. -/
def strRepeat (s : String) (n : Nat) : String :=
  String.join (List.replicate n s)

/-- Python format spec `{x:<w}`: left-justify by padding with spaces,
never truncating. -/
def pyLjust (s : String) (w : Nat) : String := s ++ spaces (w - s.length)

/-- Python format spec `{x:>w}`. -/
def pyRjust (s : String) (w : Nat) : String := spaces (w - s.length) ++ s

/-- Python `str.center(w)`: the extra space goes to the right when odd. -/
def pyCenter (s : String) (w : Nat) : String :=
  let total := w - s.length
  spaces (total / 2) ++ s ++ spaces (total - total / 2)

/-! ## Data model (`ContentSection`, `ScrapedContent`, `SummaryData`,
`MindMapData`, `CompleteResult`, `JobData` from the source) -/

structure SectionData where
  title : String
  content : String
  keywords : List String
deriving Repr, DecidableEq

structure ScrapedContent where
  url : String
  title : String
  sections : List SectionData
  full_text : String
  word_count : Nat
deriving Repr, DecidableEq

structure SummaryData where
  summary : String
  key_concepts : List String
  method : String
deriving Repr, DecidableEq

structure MindMapData where
  visual : String
  network : String
  hierarchical : String
deriving Repr, DecidableEq

structure CompleteResult where
  scraped_content : ScrapedContent
  summary : SummaryData
  mind_maps : MindMapData
deriving Repr, DecidableEq

structure JobData where
  job_id : String
  status : String
  progress : Nat
  result : Option CompleteResult
  error : Option String
  created_at : String
  completed_at : Option String
deriving Repr, DecidableEq

/-! ## Summarizer (`ContentSummarizer._extractive_summary`,
`ContentSummarizer.summarize_content`,
`ContentSummarizer._extract_key_concepts_ai`) -/

/-- Stop-word list of the concept filter in `_extractive_summary`. -/
def stopWords : List String := ["the", "and", "for", "are", "with"]

/-- Loop body of `for section in sections[:5]` in `_extractive_summary`:
accumulates the summary-sentence list and the key-concept set. -/
def sectionLoop : List SectionData → List String × List String → List String × List String
  | [], acc => acc
  | sec :: rest, (parts, concepts) =>
    let section_text := pyStrip sec.content
    if section_text = "" then sectionLoop rest (parts, concepts)
    else
      let sentences := splitSentences section_text
      let parts1 :=
        match sentences with
        | [] => parts
        | s0 :: _ =>
          let first_sentence := pyStrip s0
          if first_sentence.length > 20 then parts ++ [first_sentence] else parts
      let title_words := findCapWords sec.title
      let content_words := findCapWords section_text
      let concepts1 := setUpdate (setUpdate concepts (title_words.take 2)) (content_words.take 2)
      sectionLoop rest (parts1, concepts1)

/-- `ContentSummarizer._extractive_summary` from the source. -/
def extractive_summary (content : ScrapedContent) (max_length : Nat) : SummaryData :=
  let loopOut := sectionLoop (content.sections.take 5) ([], [])
  let summary_parts := loopOut.1
  let kc0 := loopOut.2
  let title_concepts := findCapWords content.title
  let kc1 := setUpdate kc0 title_concepts
  let tech_terms := findTechTerms (pyLower content.full_text)
  let kc2 := setUpdate kc1 ((tech_terms.take 5).map pyTitle)
  let kc3 :=
    if kc2 = [] then setUpdate kc2 ((findImportantWords content.full_text).take 8)
    else kc2
  let summary0 :=
    if summary_parts ≠ [] then String.intercalate ". " summary_parts
    else "Content overview available in full text."
  let words := pySplit summary0
  let summary1 :=
    if words.length > max_length then String.intercalate " " (words.take max_length) ++ "..."
    else summary0
  let filtered_concepts :=
    kc3.filter (fun c => c.length > 2 && pyLower c ∉ stopWords)
  { summary := summary1
    key_concepts := (setUpdate [] filtered_concepts).take 10
    method := "extractive" }

def splitCommaGo : List Char → List Char → List String
  | [], cur => [String.mk cur.reverse]
  | c :: cs, cur =>
    if c = ',' then String.mk cur.reverse :: splitCommaGo cs []
    else splitCommaGo cs (c :: cur)

/-- Python `str.split(',')` (structural, kernel-evaluable). -/
def splitComma (s : String) : List String := splitCommaGo s.toList []

def splitLinesGo : List Char → List Char → List String
  | [], cur => [String.mk cur.reverse]
  | c :: cs, cur =>
    if c = '\n' then String.mk cur.reverse :: splitLinesGo cs []
    else splitLinesGo cs (c :: cur)

/-- Lines of a rendered string: split on the newline separator the
renderers join with. -/
def splitLines (s : String) : List String := splitLinesGo s.toList []

/-- `ContentSummarizer._extract_key_concepts_ai` from the source.  The AI
capability call is a parameter: `Except.error` models `generate_content`
raising (the method catches it and returns `[]`). -/
def extract_key_concepts_ai (resp : Except String String) : List String :=
  match resp with
  | .error _ => []
  | .ok t =>
    let concepts := (splitComma (pyStrip t)).map pyStrip
    (concepts.filter (fun c => c ≠ "" && c.length > 2)).take 12

/-- `ContentSummarizer.summarize_content` from the source.  `hasModel`
models `self.api_key and self.model` being set; `aiResponse` is the
outcome of the `generate_content` summary call and `aiConceptsResponse`
the outcome of the concepts call, each `Except.error` when the capability
raises. -/
def summarize_content (hasModel : Bool) (aiResponse aiConceptsResponse : Except String String)
    (content : ScrapedContent) (max_length : Nat) : SummaryData :=
  if !hasModel then extractive_summary content max_length
  else
    match aiResponse with
    | .error _ => extractive_summary content max_length
    | .ok summary_text =>
      { summary := summary_text
        key_concepts := extract_key_concepts_ai aiConceptsResponse
        method := "ai_powered_gemini" }

/-! ## Mind-map renderer (`MindMapGenerator`)

The glyph literals below are copied character for character from the
source file (which stores each box-drawing glyph as a three-character
mojibake sequence and each emoji as a four-character sequence); the `\u`
escapes spell those exact characters. -/

/-- Vertical-bar glyph of the source (`len` 3 in Python). -/
def vbar : String := "\u201a\u00ee\u00c7"

def visTL : String := "\u201a\u00ef\u00ee"
def visH : String := "\u201a\u00ef\u00ea"
def visTR : String := "\u201a\u00ef\u00f3"
def visV : String := "\u201a\u00ef\u00eb"
def visBL : String := "\u201a\u00ef\u00f6"
def visBR : String := "\u201a\u00ef\u00f9"

/-- Branch-connector line under the title box (39 characters). -/
def visConn1 : String := "\u201a\u00ee\u00e5\u201a\u00ee\u00c4\u201a\u00ee\u00c4\u201a\u00ee\u00c4\u201a\u00ee\u00c4\u201a\u00ee\u00c4\u201a\u00ee\u00a5\u201a\u00ee\u00c4\u201a\u00ee\u00c4\u201a\u00ee\u00c4\u201a\u00ee\u00c4\u201a\u00ee\u00c4\u201a\u00ee\u00ea"

def visConn2 : String := "\u201a\u00ee\u00c7           \u201a\u00ee\u00c7"

/-- Prefix of a left-column concept row (15 characters). -/
def visLeftPre : String := "\u201a\u00ee\u00fa\u201a\u00ee\u00c4\u201a\u00ee\u00c4 \uf8ff\u00fc\u00ec\u00e5 "

/-- Pin prefix of a right-column concept (5 characters). -/
def visPin : String := "\uf8ff\u00fc\u00ec\u00e5 "

/-- Suffix of a right-column concept row (10 characters). -/
def visRightSuf : String := " \u201a\u00ee\u00c4\u201a\u00ee\u00c4\u201a\u00ee\u00a7"

def sumTL : String := "\u201a\u00ee\u00e5"
def sumH : String := "\u201a\u00ee\u00c4"
def sumTR : String := "\u201a\u00ee\u00ea"
def sumML : String := "\u201a\u00ee\u00fa"
def sumMR : String := "\u201a\u00ee\u00a7"
def sumBL : String := "\u201a\u00ee\u00ee"
def sumBR : String := "\u201a\u00ee\u00f2"

def netTL : String := "\u201a\u00ef\u00ee"
def netH : String := "\u201a\u00ef\u00ea"
def netTR : String := "\u201a\u00ef\u00f3"
def netV : String := "\u201a\u00ef\u00eb"
def netML : String := "\u201a\u00ef\u2020"
def netMR : String := "\u201a\u00ef\u00a3"
def netBL : String := "\u201a\u00ef\u00f6"
def netBR : String := "\u201a\u00ef\u00f9"
def netRootPre : String := "        \uf8ff\u00fc\u00ee\u00b5 "
def netTrunk : String := "        \u201a\u00ee\u00c7"
def netConn : String := "   \u201a\u00ee\u00e5\u201a\u00ee\u00c4\u201a\u00ee\u00c4\u201a\u00ee\u00c4\u201a\u00ee\u00c4\u201a\u00ee\u00a5\u201a\u00ee\u00c4\u201a\u00ee\u00c4\u201a\u00ee\u00c4\u201a\u00ee\u00c4\u201a\u00ee\u00ea"
def netPad : String := "   \u201a\u00ee\u00c7         \u201a\u00ee\u00c7"
def netEvenPre : String := "   \u201a\u00ee\u00fa\u201a\u00ee\u00c4 \uf8ff\u00fc\u00ee\u220f "
def netOddPre : String := "   \u201a\u00ee\u00c7         \u201a\u00ee\u00ee\u201a\u00ee\u00c4 \uf8ff\u00fc\u00ee\u220f "
def netMore1 : String := "   \u201a\u00ee\u00c7"
def netMore2 : String := "   \u201a\u00ee\u00ee\u201a\u00ee\u00c4 \uf8ff\u00fc\u00ee\u220f ... and more concepts"

/-- Root prefix of the hierarchical map (tree emoji, 5 characters). -/
def hierRootPre : String := "\uf8ff\u00fc\u00e5\u2265 "

/-- Branch prefix for every concept but the last (15 characters). -/
def hierMidPre : String := "\u201a\u00ee\u00fa\u201a\u00ee\u00c4\u201a\u00ee\u00c4 \uf8ff\u00fc\u00e5\u00f8 "

/-- Terminal branch prefix for the last concept (15 characters). -/
def hierLastPre : String := "\u201a\u00ee\u00ee\u201a\u00ee\u00c4\u201a\u00ee\u00c4 \uf8ff\u00fc\u00e5\u00f8 "

/-- Title-box lines of `_generate_text_mindmap`. -/
def titleBoxLines (title : String) : List String :=
  let title_box := visTL ++ strRepeat visH (title.length + 4) ++ visTR
  let title_content := visV ++ "  " ++ pyUpper title ++ "  " ++ visV
  let title_bottom := visBL ++ strRepeat visH (title.length + 4) ++ visBR
  let pad := spaces (40 - title.length / 2)
  ["", pad ++ title_box, pad ++ title_content, pad ++ title_bottom, ""]

/-- `key_concepts[:len(key_concepts)//2]` from `_generate_text_mindmap`. -/
def leftConcepts (kc : List String) : List String := kc.take (kc.length / 2)

/-- `key_concepts[len(key_concepts)//2:]` from `_generate_text_mindmap`. -/
def rightConcepts (kc : List String) : List String := kc.drop (kc.length / 2)

/-- Body of `for i in range(max_rows)` in `_generate_text_mindmap`. -/
def rowLine (left right : List String) (i : Nat) : String :=
  let left_text := if i < left.length then visLeftPre ++ left.getD i "" else ""
  let right_text := if i < right.length then visPin ++ right.getD i "" ++ visRightSuf else ""
  if left_text ≠ "" && right_text ≠ "" then
    pyLjust left_text 35 ++ vbar ++ pyRjust right_text 35
  else if left_text ≠ "" then pyLjust left_text 35 ++ vbar
  else if right_text ≠ "" then pyLjust "" 35 ++ vbar ++ pyRjust right_text 35
  else pyLjust "" 35 ++ vbar

/-- Concept-column block of `_generate_text_mindmap` (emitted only when
`key_concepts` is non-empty). -/
def conceptLines (kc : List String) : List String :=
  let left := leftConcepts kc
  let right := rightConcepts kc
  let max_rows := max left.length right.length
  [spaces 40 ++ vbar, spaces 35 ++ visConn1, spaces 35 ++ visConn2]
    ++ (List.range max_rows).map (rowLine left right)

/-- Greedy word-wrap loop of `_generate_text_mindmap`, including its final
flush guarded by `current_line.strip() != border`. -/
def wrapStep : List String → String → List String → List String
  | [], current_line, acc =>
    if pyStrip current_line ≠ vbar then
      acc ++ [current_line ++ spaces (78 - current_line.length) ++ vbar]
    else acc
  | w :: ws, current_line, acc =>
    if (current_line ++ w ++ " ").length > 77 then
      wrapStep ws (vbar ++ " " ++ w ++ " ")
        (acc ++ [current_line ++ spaces (78 - current_line.length) ++ vbar])
    else wrapStep ws (current_line ++ w ++ " ") acc

/-- Lines produced by the word-wrap of `summary` in
`_generate_text_mindmap`. -/
def wrapLines (summary : String) : List String :=
  wrapStep (pySplit summary) (vbar ++ " ") []

/-- Boxed summary paragraph of `_generate_text_mindmap`. -/
def summaryBoxLines (summary : String) : List String :=
  ["", sumTL ++ strRepeat sumH 78 ++ sumTR,
   vbar ++ pyCenter " SUMMARY " 78 ++ vbar,
   sumML ++ strRepeat sumH 78 ++ sumMR]
  ++ wrapLines summary ++ [sumBL ++ strRepeat sumH 78 ++ sumBR]

/-- All lines of `_generate_text_mindmap` in order. -/
def visualLines (title summary : String) (key_concepts : List String) : List String :=
  titleBoxLines title
    ++ (if key_concepts ≠ [] then conceptLines key_concepts else [])
    ++ summaryBoxLines summary

/-- `MindMapGenerator._generate_text_mindmap` from the source. -/
def generate_text_mindmap (title summary : String) (key_concepts : List String) : String :=
  String.intercalate "\n" (visualLines title summary key_concepts)

/-- Loop body of `for i, concept in enumerate(key_concepts[:8])` in
`_create_network_mind_map`: an even index emits a trunk-padding line and a
branch line, an odd index a single nested branch line. -/
def networkBranch (i : Nat) (concept : String) : List String :=
  if i % 2 == 0 then [netPad, netEvenPre ++ concept]
  else [netOddPre ++ concept]

/-- `MindMapGenerator._create_network_mind_map` from the source. -/
def create_network_mind_map (title : String) (key_concepts : List String) : String :=
  let header := ["", netTL ++ strRepeat netH 60 ++ netTR,
    netV ++ pyCenter "NETWORK MIND MAP" 60 ++ netV,
    netML ++ strRepeat netH 60 ++ netMR,
    netV ++ pyCenter title 60 ++ netV,
    netBL ++ strRepeat netH 60 ++ netBR, ""]
  let root := [netRootPre ++ title, netTrunk, netConn]
  let branches := (key_concepts.take 8).enum.flatMap (fun p => networkBranch p.1 p.2)
  let extra := if key_concepts.length > 8 then [netMore1, netMore2] else []
  String.intercalate "\n" (header ++ root ++ branches ++ extra)

/-- Per-concept branch lines of `_create_hierarchical_mindmap`; the index
test `i == len(key_concepts) - 1` selects the terminal glyph. -/
def hierConceptLines (kc : List String) : List String :=
  kc.enum.map (fun p => if p.1 == kc.length - 1 then hierLastPre ++ p.2 else hierMidPre ++ p.2)

/-- All lines of `_create_hierarchical_mindmap` in order: a blank line,
the root line, a vertical connector, then one branch line per concept. -/
def hierarchicalLines (title : String) (kc : List String) : List String :=
  ["", hierRootPre ++ pyUpper title, vbar] ++ hierConceptLines kc

/-- `MindMapGenerator._create_hierarchical_mindmap` from the source. -/
def create_hierarchical_mindmap (title : String) (kc : List String) : String :=
  String.intercalate "\n" (hierarchicalLines title kc)

/-- `MindMapGenerator.create_mind_maps` from the source. -/
def create_mind_maps (title summary : String) (key_concepts : List String) : MindMapData :=
  { visual := generate_text_mindmap title summary key_concepts
    network := create_network_mind_map title key_concepts
    hierarchical := create_hierarchical_mindmap title key_concepts }

/-! ## Job pipeline (`process_scrape_job`, `create_scrape_job`,
`delete_job`)

The source defines `process_scrape_job` twice; the second definition
(which also saves the result to disk before attaching it) shadows the
first and is the one modelled here.  Each assignment to a field of the
job record becomes an explicit event; the background task is the fold of
its event list over the job record it fetched at entry.  The fallible
stages are the scrape (`scraper.scrape_content`, which wraps any failure
in a descriptive exception) and the file save (`open`/`json.dump`); both
are parameters of type `Except`.  `summarize_content` and
`create_mind_maps` never raise: the AI path catches its own failures. -/

/-- One field assignment performed on a job record. -/
inductive JobEv where
  | wStatus : String → JobEv
  | wProgress : Nat → JobEv
  | wResult : CompleteResult → JobEv
  | wError : String → JobEv
  | wCompleted : String → JobEv
deriving Repr, DecidableEq

/-- Apply one field assignment to a job record. -/
def applyEv (j : JobData) : JobEv → JobData
  | .wStatus s => { j with status := s }
  | .wProgress p => { j with progress := p }
  | .wResult r => { j with result := some r }
  | .wError e => { j with error := some e }
  | .wCompleted t => { j with completed_at := some t }

/-- Field assignments performed by the body of `process_scrape_job`
(second definition in the source), in program order.  `scrape` is the
outcome of `scraper.scrape_content(url)`, `save` the outcome of writing
the result JSON to disk, and `now` the timestamp taken at the terminal
transition.  Any raised exception transfers control to the single
top-level handler, which writes status, error and completion time only. -/
def runEvents (scrape : Except String ScrapedContent) (hasModel : Bool)
    (aiResponse aiConceptsResponse : Except String String) (summary_length : Nat)
    (save : ScrapedContent → Except String Unit) (now : String) : List JobEv :=
  [.wStatus "processing", .wProgress 10, .wProgress 30] ++
    match scrape with
    | .error e => [.wStatus "failed", .wError e, .wCompleted now]
    | .ok content =>
      [.wProgress 60] ++
        let summary_data := summarize_content hasModel aiResponse aiConceptsResponse
          content summary_length
        [.wProgress 80] ++
          let mind_maps := create_mind_maps content.title summary_data.summary
            summary_data.key_concepts
          match save content with
          | .error e => [.wStatus "failed", .wError e, .wCompleted now]
          | .ok _ =>
            [.wResult ⟨content, summary_data, mind_maps⟩, .wStatus "completed",
             .wProgress 100, .wCompleted now]

/-- Final state of the job record mutated by `process_scrape_job`, given
the record the task fetched at entry. -/
def runJob (j : JobData) (scrape : Except String ScrapedContent) (hasModel : Bool)
    (aiResponse aiConceptsResponse : Except String String) (summary_length : Nat)
    (save : ScrapedContent → Except String Unit) (now : String) : JobData :=
  (runEvents scrape hasModel aiResponse aiConceptsResponse summary_length save now).foldl
    applyEv j

/-- Job record inserted by `create_scrape_job` before the background task
is scheduled. -/
def mkJob (job_id created_at : String) : JobData :=
  { job_id := job_id, status := "queued", progress := 0, result := none,
    error := none, created_at := created_at, completed_at := none }

/-- The in-memory `scrape_jobs` table, as an association list. -/
def JobStore := List (String × JobData)

/-- Message of the exception that escapes `process_scrape_job` when the
initial `scrape_jobs[job_id]` lookup raises `KeyError`: the handler's own
first statement `job.status = "failed"` references the local variable
`job` before any assignment to it. -/
def unboundLocalMsg : String :=
  "UnboundLocalError: local variable job referenced before assignment"

/-- Whole `process_scrape_job` invocation, including the initial
`scrape_jobs[job_id]` lookup.  When the record is present the task runs to
completion on that record and raises nothing; when it is absent the
`KeyError` is caught by the handler, whose first write then raises an
unhandled `UnboundLocalError`. -/
def process_scrape_job_run (store : List (String × JobData)) (job_id : String)
    (scrape : Except String ScrapedContent) (hasModel : Bool)
    (aiResponse aiConceptsResponse : Except String String) (summary_length : Nat)
    (save : ScrapedContent → Except String Unit) (now : String) :
    Except String JobData :=
  match store.lookup job_id with
  | none => Except.error unboundLocalMsg
  | some job =>
    Except.ok (runJob job scrape hasModel aiResponse aiConceptsResponse
      summary_length save now)

/-- `delete_job` endpoint: removes the entry, 404 when absent. -/
def delete_job (store : List (String × JobData)) (job_id : String) :
    Except String (List (String × JobData)) :=
  if (store.lookup job_id).isSome then
    Except.ok (store.filter (fun p => p.1 ≠ job_id))
  else Except.error "Job not found"

/-- Progress values written by a list of job events, in order. -/
def progressWrites (evs : List JobEv) : List Nat :=
  evs.filterMap (fun ev => match ev with | .wProgress p => some p | _ => none)

/-! ## Claim-side (specification) definitions

`claimSummary` restates the spec's description of the extractive summary
in its own words, to be compared with the source-embedded
`extractive_summary` in claim C2. -/

/-- Sentence the spec keeps for one section: the first sentence of the
section content split on `.`/`!`/`?` boundaries, kept only when the
section content is non-empty after trimming and the trimmed sentence is
longer than 20 characters. -/
def pickSentence (sec : SectionData) : Option String :=
  if pyStrip sec.content = "" then none
  else if (pyStrip ((splitSentences (pyStrip sec.content)).headD "")).length > 20 then
    some (pyStrip ((splitSentences (pyStrip sec.content)).headD ""))
  else none

/-- Qualifying first sentences of the first five sections, per the spec. -/
def claimSummarySentences (sections : List SectionData) : List String :=
  (sections.take 5).filterMap pickSentence

/-- Final extractive summary per the spec: qualifying sentences joined by
`". "`, truncated to exactly `maxWords` words plus an ellipsis marker when
longer, and a fixed placeholder when no sentence qualified. -/
def claimSummary (sections : List SectionData) (maxWords : Nat) : String :=
  let sentences := claimSummarySentences sections
  let joined :=
    if sentences = [] then "Content overview available in full text."
    else String.intercalate ". " sentences
  let ws := pySplit joined
  if ws.length > maxWords then String.intercalate " " (ws.take maxWords) ++ "..."
  else joined

/-- Document of the spec's scenario for claims C2 and C3. -/
def cloudDoc : ScrapedContent :=
  { url := "https://example.com"
    title := "Cloud Computing"
    sections := [{ title := "Intro",
                   content := "Cloud computing is powerful. It scales well.",
                   keywords := [] }]
    full_text := "Cloud computing is powerful. It scales well."
    word_count := 8 }

/-! ## Helper lemmas -/

lemma sectionLoop_fst (l : List SectionData) (parts concepts : List String) :
    (sectionLoop l (parts, concepts)).1 = parts ++ l.filterMap pickSentence := by
  induction l generalizing parts concepts with
  | nil => simp [sectionLoop]
  | cons sec rest ih =>
    by_cases h : pyStrip sec.content = ""
    · simp [sectionLoop, h, ih, pickSentence]
    · cases hs : splitSentences (pyStrip sec.content) with
      | nil =>
        have hpick : pickSentence sec = none := by
          simp only [pickSentence, hs, List.headD_nil]
          rw [if_neg h]
          decide
        simp [sectionLoop, h, hs, ih, hpick]
      | cons s0 tl =>
        by_cases hl : (pyStrip s0).length > 20 <;>
          simp [sectionLoop, h, hs, hl, ih, pickSentence]

lemma mem_setAdd {acc : List String} {x y : String} (h : y ∈ setAdd acc x) :
    y ∈ acc ∨ y = x := by
  unfold setAdd at h
  split at h
  · exact Or.inl h
  · simpa using h

lemma mem_setUpdate {l acc : List String} {y : String} (h : y ∈ setUpdate acc l) :
    y ∈ acc ∨ y ∈ l := by
  induction l generalizing acc with
  | nil => exact Or.inl h
  | cons x xs ih =>
    have h' : y ∈ setUpdate (setAdd acc x) xs := h
    rcases ih h' with h1 | h1
    · rcases mem_setAdd h1 with h2 | h2
      · exact Or.inl h2
      · exact Or.inr (by simp [h2])
    · exact Or.inr (by simp [h1])

/-- The key-concept list of the extractive path is a 10-truncation of a
deduplicated list that passed the length/stop-word filter. -/
lemma extractive_key_concepts_shape (content : ScrapedContent) (maxW : Nat) :
    ∃ base : List String,
      (extractive_summary content maxW).key_concepts
        = (setUpdate []
            (base.filter (fun c => c.length > 2 && pyLower c ∉ stopWords))).take 10 :=
  ⟨_, rfl⟩

/-! ## Claim theorems -/

/-- C2: for every document the extractive summary equals the spec's
description (first qualifying sentence of each of the first five
non-empty sections, joined by `". "`, truncated to `maxWords` words with
an ellipsis marker when longer, placeholder when none qualified); and on
the spec's scenario document (title "Cloud Computing", one section whose
content is "Cloud computing is powerful. It scales well.", maxWords 50)
the summary is exactly "Cloud computing is powerful" and the key concepts
include "Cloud" and "Computing". -/
theorem c2_extractive_summary_matches_spec :
    (∀ (content : ScrapedContent) (maxWords : Nat),
        (extractive_summary content maxWords).summary
          = claimSummary content.sections maxWords)
    ∧ (extractive_summary cloudDoc 50).summary = "Cloud computing is powerful"
    ∧ "Cloud" ∈ (extractive_summary cloudDoc 50).key_concepts
    ∧ "Computing" ∈ (extractive_summary cloudDoc 50).key_concepts := by
  refine ⟨?_, by decide, by decide, by decide⟩
  intro content maxWords
  have hparts := sectionLoop_fst (content.sections.take 5) [] []
  rw [List.nil_append] at hparts
  unfold extractive_summary claimSummary claimSummarySentences
  by_cases hsp : (content.sections.take 5).filterMap pickSentence = [] <;>
    simp [hparts, hsp]

/-- C3: every key concept returned by the extractive path comes from a
list of at most 10 entries, has length strictly greater than 2, and is
not case-insensitively equal to any stop word. -/
theorem c3_key_concepts_filtered (content : ScrapedContent) (maxW : Nat) (c : String)
    (hc : c ∈ (extractive_summary content maxW).key_concepts) :
    (extractive_summary content maxW).key_concepts.length ≤ 10
    ∧ 2 < c.length
    ∧ ∀ w ∈ stopWords, pyLower c ≠ pyLower w := by
  obtain ⟨base, hbase⟩ := extractive_key_concepts_shape content maxW
  rw [hbase] at hc ⊢
  refine ⟨List.length_take_le _ _, ?_, ?_⟩
  all_goals
    have h1 := List.mem_of_mem_take hc
    have h2 := mem_setUpdate h1
    simp only [List.not_mem_nil, false_or] at h2
    have h3 := List.mem_filter.mp h2
    have h4 := h3.2
    simp only [Bool.and_eq_true, decide_eq_true_eq] at h4
  · exact h4.1
  · intro w hw heq
    have hlow : pyLower w = w := by
      simp only [stopWords, List.mem_cons, List.not_mem_nil, or_false] at hw
      rcases hw with rfl | rfl | rfl | rfl | rfl <;> decide
    rw [hlow] at heq
    exact h4.2 (by rw [heq]; exact hw)

theorem c3_witness :
    ("Cloud" ∈ (extractive_summary cloudDoc 50).key_concepts)
    ∧ ((extractive_summary cloudDoc 50).key_concepts.length ≤ 10
       ∧ 2 < ("Cloud" : String).length
       ∧ ∀ w ∈ stopWords, pyLower "Cloud" ≠ pyLower w) :=
  ⟨by decide, c3_key_concepts_filtered cloudDoc 50 "Cloud" (by decide)⟩

/-- Method tag of the extractive path. -/
lemma extractive_method (content : ScrapedContent) (maxW : Nat) :
    (extractive_summary content maxW).method = "extractive" := rfl

/-- C4 counterexample: when the AI path succeeds, the method tag the code
attaches is the literal string "ai_powered_gemini", which is neither
"ai_powered" nor "extractive", refuting the claim that the tag is always
one of those two values. -/
theorem c4_counterexample :
    (summarize_content true (Except.ok "AI summary text") (Except.ok "Alpha, Beta, Gamma")
        cloudDoc 300).method = "ai_powered_gemini"
    ∧ ¬ ((summarize_content true (Except.ok "AI summary text") (Except.ok "Alpha, Beta, Gamma")
          cloudDoc 300).method = "ai_powered"
        ∨ (summarize_content true (Except.ok "AI summary text") (Except.ok "Alpha, Beta, Gamma")
          cloudDoc 300).method = "extractive") := by
  exact ⟨rfl, by decide⟩

/-- C4 (amended): on any failure of the AI capability (or when no model is
configured) `summarize_content` returns exactly the extractive-path result
instead of propagating the error, tagged "extractive"; and every returned
method tag is either "ai_powered_gemini" (AI path succeeded) or
"extractive" (fallback used). -/
theorem c4_ai_failure_falls_back (content : ScrapedContent) (maxW : Nat)
    (hasModel : Bool) (aiR aiC : Except String String)
    (hfail : hasModel = false ∨ ∃ e, aiR = Except.error e) :
    summarize_content hasModel aiR aiC content maxW = extractive_summary content maxW
    ∧ (summarize_content hasModel aiR aiC content maxW).method = "extractive"
    ∧ ∀ (hm : Bool) (r c : Except String String),
        (summarize_content hm r c content maxW).method = "ai_powered_gemini"
        ∨ (summarize_content hm r c content maxW).method = "extractive" := by
  have heq : summarize_content hasModel aiR aiC content maxW
      = extractive_summary content maxW := by
    rcases hfail with rfl | ⟨e, rfl⟩
    · simp [summarize_content]
    · cases hasModel <;> simp [summarize_content]
  refine ⟨heq, by rw [heq]; exact extractive_method content maxW, ?_⟩
  intro hm r c
  cases hm
  · exact Or.inr (by simp [summarize_content, extractive_method])
  · rcases r with e | t
    · exact Or.inr (by simp [summarize_content, extractive_method])
    · exact Or.inl rfl

theorem c4_witness :
    (true = false ∨ ∃ e, (Except.error "quota" : Except String String) = Except.error e)
    ∧ (summarize_content true (Except.error "quota") (Except.ok "x") cloudDoc 300
        = extractive_summary cloudDoc 300
      ∧ (summarize_content true (Except.error "quota") (Except.ok "x") cloudDoc 300).method
        = "extractive"
      ∧ ∀ (hm : Bool) (r c : Except String String),
          (summarize_content hm r c cloudDoc 300).method = "ai_powered_gemini"
          ∨ (summarize_content hm r c cloudDoc 300).method = "extractive") :=
  ⟨Or.inr ⟨"quota", rfl⟩,
   c4_ai_failure_falls_back cloudDoc 300 true (Except.error "quota") (Except.ok "x")
     (Or.inr ⟨"quota", rfl⟩)⟩

/-- C1: any stage exception in the background run is caught at the top
level: the job ends failed, with the exception message as its error, its
completion time stamped and no result attached; the stage message is
recorded verbatim; and for every outcome, result and error are never both
set on the job record. -/
theorem c1_stage_failure_is_caught (jid created now : String)
    (scrape : Except String ScrapedContent) (hasModel : Bool)
    (aiR aiC : Except String String) (slen : Nat)
    (save : ScrapedContent → Except String Unit) (final : JobData)
    (hfinal : final = runJob (mkJob jid created) scrape hasModel aiR aiC slen save now) :
    ((∃ e, scrape = Except.error e) ∨ (∃ c e, scrape = Except.ok c ∧ save c = Except.error e) →
      final.status = "failed" ∧ final.completed_at = some now ∧ final.result = none)
    ∧ (∀ e, scrape = Except.error e → final.error = some e)
    ∧ (∀ c e, scrape = Except.ok c → save c = Except.error e → final.error = some e)
    ∧ (final.result = none ∨ final.error = none) := by
  subst hfinal
  refine ⟨?_, ?_, ?_, ?_⟩
  · rintro (⟨e, rfl⟩ | ⟨c, e, rfl, hsave⟩)
    · simp [runJob, runEvents, applyEv, mkJob]
    · simp [runJob, runEvents, applyEv, mkJob, hsave]
  · rintro e rfl
    simp [runJob, runEvents, applyEv, mkJob]
  · rintro c e rfl hsave
    simp [runJob, runEvents, applyEv, mkJob, hsave]
  · rcases scrape with e | c
    · simp [runJob, runEvents, applyEv, mkJob]
    · rcases hsave : save c with e | u <;> simp [runJob, runEvents, applyEv, mkJob, hsave]

theorem c1_witness :
    (runJob (mkJob "job-1" "t0") (Except.error "boom") true (Except.ok "s") (Except.ok "c")
        300 (fun _ => Except.ok ()) "t1").status = "failed"
    ∧ (runJob (mkJob "job-1" "t0") (Except.error "boom") true (Except.ok "s") (Except.ok "c")
        300 (fun _ => Except.ok ()) "t1").completed_at = some "t1"
    ∧ (runJob (mkJob "job-1" "t0") (Except.error "boom") true (Except.ok "s") (Except.ok "c")
        300 (fun _ => Except.ok ()) "t1").result = none :=
  (c1_stage_failure_is_caught "job-1" "t0" "t1" (Except.error "boom") true
    (Except.ok "s") (Except.ok "c") 300 (fun _ => Except.ok ()) _ rfl).1
    (Or.inl ⟨"boom", rfl⟩)

/-- C5: over a job's lifetime the sequence of written progress values
(0 at creation, then the background task's writes) is non-decreasing; a
job that ends completed has final written value and final progress exactly
100; and 100 is written only when the job completes, never for a failed
job. -/
theorem c5_progress_monotone (jid created now : String)
    (scrape : Except String ScrapedContent) (hasModel : Bool)
    (aiR aiC : Except String String) (slen : Nat)
    (save : ScrapedContent → Except String Unit) (tr : List Nat) (final : JobData)
    (htr : tr = 0 :: progressWrites (runEvents scrape hasModel aiR aiC slen save now))
    (hfinal : final = runJob (mkJob jid created) scrape hasModel aiR aiC slen save now) :
    List.Chain' (fun a b => a ≤ b) tr
    ∧ (final.status = "completed" → tr.getLast? = some 100 ∧ final.progress = 100)
    ∧ (100 ∈ tr → final.status = "completed")
    ∧ (final.status = "failed" → final.progress < 100) := by
  subst htr hfinal
  rcases scrape with e | c
  · have hpw : progressWrites (runEvents (Except.error e) hasModel aiR aiC slen save now)
        = [10, 30] := rfl
    have hst : (runJob (mkJob jid created) (Except.error e) hasModel aiR aiC slen save
        now).status = "failed" := rfl
    have hpr : (runJob (mkJob jid created) (Except.error e) hasModel aiR aiC slen save
        now).progress = 30 := rfl
    rw [hpw, hst, hpr]
    refine ⟨by simp [List.chain'_cons], fun h => absurd h (by decide), by decide,
      fun _ => by decide⟩
  · rcases hsave : save c with e | u
    · have hpw : progressWrites (runEvents (Except.ok c) hasModel aiR aiC slen save now)
          = [10, 30, 60, 80] := by
        simp [runEvents, progressWrites, hsave]
      have hst : (runJob (mkJob jid created) (Except.ok c) hasModel aiR aiC slen save
          now).status = "failed" := by
        simp [runJob, runEvents, applyEv, mkJob, hsave]
      have hpr : (runJob (mkJob jid created) (Except.ok c) hasModel aiR aiC slen save
          now).progress = 80 := by
        simp [runJob, runEvents, applyEv, mkJob, hsave]
      rw [hpw, hst, hpr]
      refine ⟨by simp [List.chain'_cons], fun h => absurd h (by decide), by decide,
        fun _ => by decide⟩
    · have hpw : progressWrites (runEvents (Except.ok c) hasModel aiR aiC slen save now)
          = [10, 30, 60, 80, 100] := by
        simp [runEvents, progressWrites, hsave]
      have hst : (runJob (mkJob jid created) (Except.ok c) hasModel aiR aiC slen save
          now).status = "completed" := by
        simp [runJob, runEvents, applyEv, mkJob, hsave]
      have hpr : (runJob (mkJob jid created) (Except.ok c) hasModel aiR aiC slen save
          now).progress = 100 := by
        simp [runJob, runEvents, applyEv, mkJob, hsave]
      rw [hpw, hst, hpr]
      refine ⟨by simp [List.chain'_cons], fun _ => ⟨by decide, rfl⟩, fun _ => rfl,
        fun h => absurd h (by decide)⟩

theorem c5_witness :
    List.Chain' (fun a b => a ≤ b)
      (0 :: progressWrites (runEvents (Except.error "boom") true (Except.ok "s")
        (Except.ok "c") 300 (fun _ => Except.ok ()) "t1"))
    ∧ (100 ∈ (0 :: progressWrites (runEvents (Except.error "boom") true (Except.ok "s")
        (Except.ok "c") 300 (fun _ => Except.ok ()) "t1")) →
      (runJob (mkJob "job-1" "t0") (Except.error "boom") true (Except.ok "s") (Except.ok "c")
        300 (fun _ => Except.ok ()) "t1").status = "completed") := by
  have h := c5_progress_monotone "job-1" "t0" "t1" (Except.error "boom") true
    (Except.ok "s") (Except.ok "c") 300 (fun _ => Except.ok ()) _ _ rfl rfl
  exact ⟨h.1, h.2.2.1⟩

/-- C10: the failure handler writes only status, error and completion
time: a failed job keeps its pre-failure progress (30 when the scrape
raised, since the 30-checkpoint precedes the fetch call; 80 when the
result save raised), that progress is strictly below 100, the result stays
`None`, and the untouched identity fields are unchanged. -/
theorem c10_failure_frame (jid created now : String)
    (scrape : Except String ScrapedContent) (hasModel : Bool)
    (aiR aiC : Except String String) (slen : Nat)
    (save : ScrapedContent → Except String Unit) (final : JobData)
    (hfinal : final = runJob (mkJob jid created) scrape hasModel aiR aiC slen save now) :
    ((∃ e, scrape = Except.error e) ∨ (∃ c e, scrape = Except.ok c ∧ save c = Except.error e) →
      final.status = "failed" ∧ final.result = none ∧ final.progress < 100
      ∧ final.job_id = jid ∧ final.created_at = created)
    ∧ (∀ e, scrape = Except.error e → final.progress = 30)
    ∧ (∀ c e, scrape = Except.ok c → save c = Except.error e → final.progress = 80) := by
  subst hfinal
  refine ⟨?_, ?_, ?_⟩
  · rintro (⟨e, rfl⟩ | ⟨c, e, rfl, hsave⟩)
    · simp [runJob, runEvents, applyEv, mkJob]
    · simp [runJob, runEvents, applyEv, mkJob, hsave]
  · rintro e rfl
    simp [runJob, runEvents, applyEv, mkJob]
  · rintro c e rfl hsave
    simp [runJob, runEvents, applyEv, mkJob, hsave]

theorem c10_witness :
    (runJob (mkJob "job-1" "t0") (Except.error "boom") true (Except.ok "s") (Except.ok "c")
        300 (fun _ => Except.ok ()) "t1").progress = 30
    ∧ (runJob (mkJob "job-1" "t0") (Except.error "boom") true (Except.ok "s") (Except.ok "c")
        300 (fun _ => Except.ok ()) "t1").result = none :=
  ⟨(c10_failure_frame "job-1" "t0" "t1" (Except.error "boom") true (Except.ok "s")
      (Except.ok "c") 300 (fun _ => Except.ok ()) _ rfl).2.1 "boom" rfl,
   ((c10_failure_frame "job-1" "t0" "t1" (Except.error "boom") true (Except.ok "s")
      (Except.ok "c") 300 (fun _ => Except.ok ()) _ rfl).1
      (Or.inl ⟨"boom", rfl⟩)).2.1⟩

/-- C6 counterexample: deleting a job before its background unit runs
makes the unit raise an unhandled error rather than complete as a no-op:
after `delete_job` empties the store, `process_scrape_job` hits a
`KeyError` whose handler itself raises `UnboundLocalError`. -/
theorem c6_counterexample :
    delete_job [("job-1", mkJob "job-1" "t0")] "job-1"
      = Except.ok ([] : List (String × JobData))
    ∧ process_scrape_job_run [] "job-1" (Except.error "net down") true (Except.ok "s")
        (Except.ok "c") 300 (fun _ => Except.ok ()) "t1"
      = Except.error unboundLocalMsg := ⟨rfl, rfl⟩

/-- C6 (amended): when the job record is still present as the background
unit starts, the unit runs to completion and raises nothing — a deletion
after that point is invisible to it, since the unit only mutates the
record it already fetched, which is a no-op on the store; but when the
record was deleted before the unit starts, the lookup's `KeyError` sends
control to the handler, whose first write raises an unhandled
`UnboundLocalError`. -/
theorem c6_deletion_tolerance (store : List (String × JobData)) (job_id : String)
    (scrape : Except String ScrapedContent) (hasModel : Bool)
    (aiR aiC : Except String String) (slen : Nat)
    (save : ScrapedContent → Except String Unit) (now : String) :
    (∀ j, store.lookup job_id = some j →
      process_scrape_job_run store job_id scrape hasModel aiR aiC slen save now
        = Except.ok (runJob j scrape hasModel aiR aiC slen save now))
    ∧ (store.lookup job_id = none →
      process_scrape_job_run store job_id scrape hasModel aiR aiC slen save now
        = Except.error unboundLocalMsg) := by
  constructor
  · intro j hj
    simp [process_scrape_job_run, hj]
  · intro hj
    simp [process_scrape_job_run, hj]

theorem c6_witness :
    process_scrape_job_run [("job-1", mkJob "job-1" "t0")] "job-1" (Except.error "boom")
        true (Except.ok "s") (Except.ok "c") 300 (fun _ => Except.ok ()) "t1"
      = Except.ok (runJob (mkJob "job-1" "t0") (Except.error "boom") true (Except.ok "s")
          (Except.ok "c") 300 (fun _ => Except.ok ()) "t1") :=
  (c6_deletion_tolerance [("job-1", mkJob "job-1" "t0")] "job-1" (Except.error "boom")
    true (Except.ok "s") (Except.ok "c") 300 (fun _ => Except.ok ()) "t1").1
    (mkJob "job-1" "t0") rfl

/-- C7 counterexample: for the three concepts A, B, C the left column is
only `["A"]`: the middle element B falls in the right half, refuting the
claim that the left half includes the middle element when the count is
odd. -/
theorem c7_counterexample :
    leftConcepts ["A", "B", "C"] = ["A"]
    ∧ rightConcepts ["A", "B", "C"] = ["B", "C"]
    ∧ "B" ∉ leftConcepts ["A", "B", "C"] := by decide

/-- C7 (amended): for a non-empty concepts list the visual style splits
at index ⌊count/2⌋ — the left column is the first ⌊count/2⌋ concepts, so
the middle element of an odd count starts the right column — and renders
one row per index up to `max(len(left), len(right))`. -/
theorem c7_split_floor (t s : String) (kc : List String) (h : kc ≠ []) :
    visualLines t s kc = titleBoxLines t ++ conceptLines kc ++ summaryBoxLines s
    ∧ (leftConcepts kc).length = kc.length / 2
    ∧ (rightConcepts kc).length = kc.length - kc.length / 2
    ∧ leftConcepts kc ++ rightConcepts kc = kc
    ∧ (rightConcepts kc).head? = kc[kc.length / 2]?
    ∧ (conceptLines kc).length
        = 3 + max (leftConcepts kc).length (rightConcepts kc).length := by
  refine ⟨by simp [visualLines, h], ?_, by simp [rightConcepts],
    List.take_append_drop _ _, ?_, ?_⟩
  · simp [leftConcepts]
    omega
  · simp [rightConcepts]
  · simp [conceptLines]
    omega

theorem c7_witness :
    (["A", "B", "C"] : List String) ≠ []
    ∧ (conceptLines ["A", "B", "C"]).length
        = 3 + max (leftConcepts ["A", "B", "C"]).length
            (rightConcepts ["A", "B", "C"]).length :=
  ⟨by decide, (c7_split_floor "T" "hello" ["A", "B", "C"] (by decide)).2.2.2.2.2⟩

/-- Mapping an indexed function over `enumFrom` collapses to a plain map
when the function ignores every index in range. -/
lemma enumFrom_map_const_of_lt {α β : Type} (l : List α) (n : Nat) (f : Nat × α → β)
    (g : α → β) (hf : ∀ i x, i < n + l.length → f (i, x) = g x) :
    (List.enumFrom n l).map f = l.map g := by
  induction l generalizing n with
  | nil => simp
  | cons a l ih =>
    simp only [List.enumFrom, List.map_cons]
    rw [hf n a (by simp), ih (n + 1) ?_]
    intro i x hi
    apply hf
    simp only [List.length_cons]
    omega

lemma hierConceptLines_append (kc : List String) (c : String) :
    hierConceptLines (kc ++ [c])
      = kc.map (fun x => hierMidPre ++ x) ++ [hierLastPre ++ c] := by
  unfold hierConceptLines
  rw [show (kc ++ [c]).enum = List.enumFrom 0 (kc ++ [c]) from rfl]
  rw [List.enumFrom_append, List.map_append]
  congr 1
  · apply enumFrom_map_const_of_lt
    intro i x hi
    have hne : ¬ (i == (kc ++ [c]).length - 1) = true := by
      simp only [List.length_append, List.length_cons, List.length_nil, beq_iff_eq]
      omega
    simp only [hne]
    simp
  · have hidx : ((0 + kc.length == (kc ++ [c]).length - 1) : Bool) = true := by
      simp [List.length_append]
    simp only [List.enumFrom, List.map_cons, List.map_nil, hidx]
    simp

/-- C8 counterexample: for three concepts the hierarchical render has 6
lines (a leading blank line, the root line, a vertical connector, then the
three branch lines), not the 4 lines the claim states. -/
theorem c8_counterexample :
    (splitLines (create_hierarchical_mindmap "Topic" ["Alpha", "Beta", "Gamma"])).length = 6
    ∧ (splitLines (create_hierarchical_mindmap "Topic" ["Alpha", "Beta", "Gamma"])).length
        ≠ 4 := ⟨rfl, by decide⟩

/-- C8 (amended): the hierarchical render is a blank line, a root line
with the uppercased title, a vertical connector line, then exactly one
tree-branch line per concept with no truncation (3 + n lines in all, so 6
lines for the scenario's three concepts); every concept but the last uses
the `‚îú`-branch prefix and the last uses the distinct `‚îî`-terminal
prefix. -/
theorem c8_hierarchical_shape (title c : String) (kc : List String) :
    (hierarchicalLines title kc).length = 3 + kc.length
    ∧ hierConceptLines (kc ++ [c]) = kc.map (fun x => hierMidPre ++ x) ++ [hierLastPre ++ c]
    ∧ hierMidPre ≠ hierLastPre
    ∧ create_hierarchical_mindmap title kc
        = String.intercalate "\n" (hierarchicalLines title kc) := by
  refine ⟨?_, hierConceptLines_append kc c, by decide, rfl⟩
  simp [hierarchicalLines, hierConceptLines]
  omega

/-- Length of a padding string. -/
lemma spaces_length (n : Nat) : (spaces n).length = n := by
  show (String.mk (List.replicate n ' ')).length = n
  rw [show (String.mk (List.replicate n ' ')).length = (List.replicate n ' ').length from rfl,
    List.length_replicate]

lemma vbar_length : vbar.length = 3 := rfl

/-- Bound invariant of the greedy word-wrap loop: starting from a current
line of at most 80 characters, with every remaining word of at most 75
characters and every already-emitted line of at most 83 characters, every
emitted line has at most 83 characters. -/
lemma wrapStep_bound (words : List String) (cur : String) (acc : List String)
    (hw : ∀ w ∈ words, w.length ≤ 75) (hcur : cur.length ≤ 80)
    (hacc : ∀ l ∈ acc, l.length ≤ 83) :
    ∀ l ∈ wrapStep words cur acc, l.length ≤ 83 := by
  induction words generalizing cur acc with
  | nil =>
    intro l hl
    unfold wrapStep at hl
    split at hl
    · rcases List.mem_append.mp hl with h | h
      · exact hacc l h
      · have hx : l = cur ++ spaces (78 - cur.length) ++ vbar := by simpa using h
        subst hx
        rw [String.length_append, String.length_append, spaces_length, vbar_length]
        omega
    · exact hacc l hl
  | cons w ws ih =>
    intro l hl
    unfold wrapStep at hl
    split at hl
    · refine ih (vbar ++ " " ++ w ++ " ") _
        (fun x hx => hw x (List.mem_cons_of_mem _ hx)) ?_ ?_ l hl
      · have hwlen : w.length ≤ 75 := hw w (List.mem_cons_self _ _)
        rw [String.length_append, String.length_append, String.length_append, vbar_length]
        have h1 : (" " : String).length = 1 := rfl
        rw [h1]
        omega
      · intro x hx
        rcases List.mem_append.mp hx with h | h
        · exact hacc x h
        · have hx2 : x = cur ++ spaces (78 - cur.length) ++ vbar := by simpa using h
          subst hx2
          rw [String.length_append, String.length_append, spaces_length, vbar_length]
          omega
    · next hle =>
      refine ih (cur ++ w ++ " ") _
        (fun x hx => hw x (List.mem_cons_of_mem _ hx)) ?_ hacc l hl
      have hlen : (cur ++ w ++ " ").length ≤ 77 := by omega
      omega

/-- Summary used by the C9 counterexample: a single 80-character word. -/
def longWordSummary : String := String.mk (List.replicate 80 'a')

/-- C9 counterexample: a summary consisting of one 80-character word makes
the wrap emit a line of 88 characters, whose content (88 minus the two
3-character border glyphs) is 82 characters, exceeding the 77-character
budget. -/
theorem c9_counterexample :
    (wrapLines longWordSummary).length = 2
    ∧ ((wrapLines longWordSummary).getD 1 "").length = 88
    ∧ ¬ (((wrapLines longWordSummary).getD 1 "").length ≤ 2 * vbar.length + 77) := by
  refine ⟨rfl, rfl, by decide⟩

/-- C9 (amended): whenever every whitespace-delimited word of the summary
has at most 75 characters, every line the greedy wrap emits has at most
77 characters of content between its two border glyphs (total length at
most 2·|border| + 77); a single longer word overflows the budget. -/
theorem c9_wrap_bounded (summary : String)
    (hw : ∀ w ∈ pySplit summary, w.length ≤ 75) :
    ∀ line ∈ wrapLines summary, line.length ≤ 2 * vbar.length + 77 := by
  intro line hl
  have h := wrapStep_bound (pySplit summary) (vbar ++ " ") [] hw (by decide)
    (by intro x hx; simp at hx) line hl
  exact le_trans h (by decide)

theorem c9_witness :
    (∀ w ∈ pySplit "hello world", w.length ≤ 75)
    ∧ ((wrapLines "hello world").getD 0 "").length ≤ 2 * vbar.length + 77 :=
  ⟨by decide, c9_wrap_bounded "hello world" (by decide) _ (by decide)⟩

end WebSummarizer
